import Mathlib

/-!
Verification of the keyword-annotation preparation and scoring pipeline
(`utils/prepare_data.py`, `utils/add_samples.py`,
`utils/compute_annotation_overlap.py`).

Pure computations are embedded as Lean functions; the calls into Python's
`random` module (`random.sample`, `random.shuffle`) are embedded as outcome
predicates describing the support of the corresponding distribution, so that
properties quantify over every outcome of the randomness source.
-/

/-- The fixed sentinel option string appended after the shuffled candidates
in `add_samples.py` and excluded from scoring in
`compute_annotation_overlap.py`. -/
def sentinel : String := "None of the above"

/-- Outcome predicate for `random.sample(population, k)`: the result is a
list of `k` elements drawn without replacement from `k` distinct positions
of `population`, in arbitrary order (i.e. a permutation of a sublist). -/
def SampleOutcome (population : List String) (k : Nat) (s : List String) : Prop :=
  s.length = k ∧ s.Subperm population

/-- Outcome predicate for `random.shuffle(l)`: the result is a permutation
of `l`. -/
def ShuffleOutcome (l s : List String) : Prop :=
  s.Perm l

/-- The source's `[k for k in all_keywords_list if k not in true_keywords]` in the
`else` branch of the candidate-construction loop (identical in
`prepare_data.py` lines 129-132 and `add_samples.py` lines 138-141). -/
def possible_distractors (pool true_keywords : List String) : List String :=
  pool.filter (fun k => decide (k ∉ true_keywords))

/-- The candidate-construction step shared verbatim by `prepare_data.py`
(lines 114-142) and `add_samples.py` (lines 123-151): with
`num_distractors = pool_size - len(true_keywords)` (Python `int`
subtraction, so negative exactly when `pool_size < len true_keywords`),
either truncate the true keywords by `random.sample`, or extend them with
distractors sampled from the pool minus the true keywords (all of the
eligible distractors when there are too few), then `random.shuffle`.
`candidates` ranges over the possible results. -/
def BuildCore (pool_size : Nat) (true_keywords pool candidates : List String) : Prop :=
  if pool_size < true_keywords.length then
    ∃ samp, SampleOutcome true_keywords pool_size samp ∧ ShuffleOutcome samp candidates
  else
    ∃ distractors,
      (if (possible_distractors pool true_keywords).length
          < pool_size - true_keywords.length then
        distractors = possible_distractors pool true_keywords
      else
        SampleOutcome (possible_distractors pool true_keywords)
          (pool_size - true_keywords.length) distractors) ∧
      ShuffleOutcome (true_keywords ++ distractors) candidates

/-- The candidates list emitted by `prepare_data.py` (lines 147-152): the
shuffled list is written out as-is, with no sentinel appended. -/
def BuildPrepare (pool_size : Nat) (true_keywords pool out : List String) : Prop :=
  BuildCore pool_size true_keywords pool out

/-- The candidates list emitted by `add_samples.py` (lines 153-163):
`candidates.append("None of the above")` runs after the shuffle, so the
sentinel is the final element. -/
def BuildAdd (pool_size : Nat) (true_keywords pool out : List String) : Prop :=
  ∃ c, BuildCore pool_size true_keywords pool c ∧ out = c ++ [sentinel]

/-! ## The join-and-sample step of the append flow (`add_samples.py`) -/

/-- Python truthiness on an optional string field: `bio_item.get(k)` is
falsy when the key is absent or the value is the empty string. -/
def truthy (o : Option String) : Option String :=
  match o with
  | none => none
  | some s => if s = "" then none else some s

/-- A biography entry: only the fields the scripts read. -/
structure BioItem where
  character_json : Option String
  id : Option String
  character_name : Option String
  name : Option String
  biography : String
deriving DecidableEq

/-- A model-output entry: `character_json` plus
`personality_keywords.get('English', [])`. -/
structure ModelItem where
  character_json : String
  english_keywords : List String
deriving DecidableEq

/-- A joined record as built in the loop of `add_samples.py`
(lines 100-105). -/
structure JoinedItem where
  id : String
  name : String
  biography : String
  model_keywords : List String
deriving DecidableEq

/-- The source's `bio_item.get('character_json') or bio_item.get('id')`
(`add_samples.py` lines 85-86): first truthy of the two fields. -/
def bioCharId (b : BioItem) : Option String :=
  (truthy b.character_json).orElse fun _ => truthy b.id

/-- The source's `bio_item.get('character_name') or bio_item.get('name', 'Unknown')`
(`add_samples.py` lines 98-99). -/
def bioName (b : BioItem) : String :=
  (truthy b.character_name).getD (b.name.getD "Unknown")

/-- The source's `model_lookup = {item['character_json']: item for item in model_data}`
(`add_samples.py` line 70): a dict comprehension, so on duplicate keys the
last entry wins. -/
def model_lookup (model_data : List ModelItem) (cid : String) : Option ModelItem :=
  model_data.reverse.find? (fun m => m.character_json == cid)

/-- The join-and-filter loop of `add_samples.py` (lines 84-106): keep a
biography entry when its identifier resolves, is not among the already-used
ids, matches a model entry, and that entry has non-empty English
keywords. -/
def availableData (bio_data : List BioItem) (model_data : List ModelItem)
    (used_ids : List String) : List JoinedItem :=
  match bio_data with
  | [] => []
  | b :: rest =>
    match bioCharId b with
    | none => availableData rest model_data used_ids
    | some cid =>
      if cid ∈ used_ids then availableData rest model_data used_ids
      else
        match model_lookup model_data cid with
        | none => availableData rest model_data used_ids
        | some m =>
          if m.english_keywords = [] then availableData rest model_data used_ids
          else
            { id := cid, name := bioName b, biography := b.biography,
              model_keywords := m.english_keywords }
              :: availableData rest model_data used_ids

/-- Outcome predicate for the sampling step of `add_samples.py`
(lines 111-117): when fewer than `num_samples` characters are available all
of them are used; otherwise `random.sample` picks exactly `num_samples`
distinct entries. -/
def SamplerOutcome (available : List JoinedItem) (k : Nat)
    (out : List JoinedItem) : Prop :=
  if available.length < k then out = available
  else out.length = k ∧ out.Subperm available

/-! ## Overlap scoring (`compute_annotation_overlap.py`) -/

/-- The per-instance similarity scores, all rational-valued (Python floats
arising from integer divisions; modelled exactly). -/
structure MetricsResult where
  precision : ℚ
  «recall» : ℚ
  f1 : ℚ
  jaccard : ℚ
deriving DecidableEq

/-- The source's `compute_metrics` (`compute_annotation_overlap.py` lines 35-58),
translated clause by clause from the source. -/
def compute_metrics (predicted actual : Finset String) : MetricsResult :=
  if predicted = ∅ ∧ actual = ∅ then
    { precision := 1, «recall» := 1, f1 := 1, jaccard := 1 }
  else
    let intersection := predicted ∩ actual
    let union := predicted ∪ actual
    let precision : ℚ :=
      if predicted ≠ ∅ then (intersection.card : ℚ) / (predicted.card : ℚ) else 0
    let «recall» : ℚ :=
      if actual ≠ ∅ then (intersection.card : ℚ) / (actual.card : ℚ) else 0
    let f1 : ℚ :=
      if 0 < precision + «recall» then
        2 * precision * «recall» / (precision + «recall»)
      else 0
    let jaccard : ℚ :=
      if union ≠ ∅ then (intersection.card : ℚ) / (union.card : ℚ) else 0
    { precision := precision, «recall» := «recall», f1 := f1, jaccard := jaccard }

/-- The scorer as the spec words it (§4.4 of the spec, quoted in the claim):
all four metrics are `1.0` when both sets are empty, and otherwise each
metric is its guarded ratio with empty denominators mapped to `0.0`.
Written from the spec's words, to be compared with `compute_metrics`. -/
def metricsSpec (predicted actual : Finset String) : MetricsResult :=
  if predicted = ∅ ∧ actual = ∅ then
    { precision := 1, «recall» := 1, f1 := 1, jaccard := 1 }
  else
    { precision :=
        if predicted.Nonempty then
          ((predicted ∩ actual).card : ℚ) / (predicted.card : ℚ)
        else 0
      «recall» :=
        if actual.Nonempty then
          ((predicted ∩ actual).card : ℚ) / (actual.card : ℚ)
        else 0
      f1 :=
        let p : ℚ :=
          if predicted.Nonempty then
            ((predicted ∩ actual).card : ℚ) / (predicted.card : ℚ)
          else 0
        let r : ℚ :=
          if actual.Nonempty then
            ((predicted ∩ actual).card : ℚ) / (actual.card : ℚ)
          else 0
        if 0 < p + r then 2 * p * r / (p + r) else 0
      jaccard :=
        if (predicted ∪ actual).Nonempty then
          ((predicted ∩ actual).card : ℚ) / ((predicted ∪ actual).card : ℚ)
        else 0 }

/-- The keys of `label_annotations.valid_keywords` of one human annotation
entry together with its identifier fields; only the fields
`compute_annotation_overlap.py` reads. -/
structure AnnInstance where
  instance_id : Option String
  id : Option String
  valid_keywords : List String
deriving DecidableEq

/-- One original task record, as read back for scoring: only
`model_keywords` is used. -/
structure OrigInstance where
  model_keywords : List String
deriving DecidableEq

/-- The source's `extract_model_keywords` (`compute_annotation_overlap.py`
lines 17-19): `set(instance.get('model_keywords', []))`. -/
def extract_model_keywords (o : OrigInstance) : Finset String :=
  o.model_keywords.toFinset

/-- The source's `extract_annotated_keywords` (`compute_annotation_overlap.py`
lines 22-32): the set of keys of `valid_keywords` other than
`"None of the above"`. -/
def extract_annotated_keywords (a : AnnInstance) : Finset String :=
  (a.valid_keywords.filter (fun k => decide (k ≠ sentinel))).toFinset

/-- The source's `annotated_instance.get('instance_id') or annotated_instance.get('id')`
(`compute_annotation_overlap.py` line 90). -/
def annId (a : AnnInstance) : Option String :=
  (truthy a.instance_id).orElse fun _ => truthy a.id

/-- The `user_metrics` list built by `compute_user_metrics`
(`compute_annotation_overlap.py` lines 83-114): one `MetricsResult` per
annotation entry whose identifier resolves and is found in the original
lookup; other entries are silently skipped. -/
def userMetrics (anns : List AnnInstance)
    (lookup : String → Option OrigInstance) : List MetricsResult :=
  match anns with
  | [] => []
  | a :: rest =>
    match annId a with
    | none => userMetrics rest lookup
    | some iid =>
      match lookup iid with
      | none => userMetrics rest lookup
      | some orig =>
        compute_metrics (extract_annotated_keywords a)
            (extract_model_keywords orig)
          :: userMetrics rest lookup

/-- The source's `sum(values) / len(values)` (`compute_annotation_overlap.py`
line 75). -/
def listMean (l : List ℚ) : ℚ :=
  l.sum / l.length

/-- The source's `sum((x - mean)**2 for x in values) / len(values)`
(`compute_annotation_overlap.py` line 77): the population variance, the
radicand of the standard deviation. -/
def listVar (l : List ℚ) : ℚ :=
  (l.map (fun x => (x - listMean l) ^ 2)).sum / l.length

/-- The source's `(... ) ** 0.5` (`compute_annotation_overlap.py` line 78): the
population standard deviation. -/
noncomputable def listStd (l : List ℚ) : ℝ :=
  Real.sqrt (listVar l)

/-- The aggregate over one collection: for each of the four metric keys a
`_mean` and a `_std` entry, exactly the keys `compute_aggregate_metrics`
produces on a list of `compute_metrics` results. -/
structure AggregateResult where
  precision_mean : ℚ
  precision_std : ℝ
  recall_mean : ℚ
  recall_std : ℝ
  f1_mean : ℚ
  f1_std : ℝ
  jaccard_mean : ℚ
  jaccard_std : ℝ

/-- The source's `compute_aggregate_metrics` (`compute_annotation_overlap.py`
lines 61-80): the empty collection yields an empty dict (no keys, modelled
as `none`); otherwise every input dict has the same four numeric keys, so
each key's value list is the projection of the inputs, and the result holds
its mean and population standard deviation. -/
noncomputable def compute_aggregate_metrics (all_metrics : List MetricsResult) :
    Option AggregateResult :=
  if all_metrics = [] then none
  else some
    { precision_mean := listMean (all_metrics.map (·.precision))
      precision_std := listStd (all_metrics.map (·.precision))
      recall_mean := listMean (all_metrics.map (·.«recall»))
      recall_std := listStd (all_metrics.map (·.«recall»))
      f1_mean := listMean (all_metrics.map (·.f1))
      f1_std := listStd (all_metrics.map (·.f1))
      jaccard_mean := listMean (all_metrics.map (·.jaccard))
      jaccard_std := listStd (all_metrics.map (·.jaccard)) }

/-- The flat list `all_instance_metrics` of `main`
(`compute_annotation_overlap.py` lines 156-161): the per-instance metrics
of every user's result, concatenated in user order. -/
def allInstanceMetrics (users : List (List AnnInstance))
    (lookup : String → Option OrigInstance) : List MetricsResult :=
  (users.map (fun anns => userMetrics anns lookup)).flatten

/-- The source's `overall_metrics = compute_aggregate_metrics(all_instance_metrics)`
(`compute_annotation_overlap.py` line 162). -/
noncomputable def overallAggregate (users : List (List AnnInstance))
    (lookup : String → Option OrigInstance) : Option AggregateResult :=
  compute_aggregate_metrics (allInstanceMetrics users lookup)

/-! ## Biography-file format dispatch (`load_bio_file`) -/

/-- The three supported loaders of `load_bio_file`; the actual file I/O is
an external concern (spec §1), so each branch is represented by the loader
it dispatches to. -/
inductive BioFormat where
  | jsonlRecords
  | jsonValue
  | csvRecords
deriving DecidableEq

/-- Python's `str.endswith(suffix)`: the character sequence of `suf` is a
suffix of the character sequence of `s`. -/
def strEndsWith (s suf : String) : Bool :=
  decide (suf.data <:+ s.data)

/-- The source's `load_bio_file` (`prepare_data.py` and `add_samples.py`, lines 13-24):
dispatch on the path suffix; any other path raises
`ValueError("Unknown bio file format")`. -/
def load_bio_file (bio_file_path : String) : Except String BioFormat :=
  if strEndsWith bio_file_path ".jsonl" then .ok .jsonlRecords
  else if strEndsWith bio_file_path ".json" then .ok .jsonValue
  else if strEndsWith bio_file_path ".csv" then .ok .csvRecords
  else .error "Unknown bio file format"

/-- Predicate: `sub` occurs as a contiguous substring of `s` — what it
means for an error message to name the rejected path. -/
def ContainsSubstring (s sub : String) : Prop :=
  ∃ pre post, s = pre ++ sub ++ post

/-! ## Helper lemmas -/

lemma mem_possible_distractors {pool true_keywords : List String} {x : String} :
    x ∈ possible_distractors pool true_keywords ↔ x ∈ pool ∧ x ∉ true_keywords := by
  simp [possible_distractors]

lemma subperm_nodup {s t : List String} (h : s.Subperm t) (hn : t.Nodup) :
    s.Nodup := by
  obtain ⟨l, hp, hs⟩ := h
  exact hp.nodup (hn.sublist hs)

lemma compute_metrics_empty_empty :
    compute_metrics ∅ ∅ = ⟨1, 1, 1, 1⟩ := by
  simp [compute_metrics]

lemma compute_metrics_self {S : Finset String} (h : S ≠ ∅) :
    compute_metrics S S = ⟨1, 1, 1, 1⟩ := by
  have hcard : (S.card : ℚ) ≠ 0 := by
    exact_mod_cast Finset.card_ne_zero.mpr (Finset.nonempty_iff_ne_empty.mpr h)
  simp only [compute_metrics, Finset.inter_self, Finset.union_self]
  rw [if_neg (by tauto)]
  simp only [if_pos h, div_self hcard]
  norm_num

lemma compute_metrics_disjoint {a b : Finset String} (hab : a ∩ b = ∅)
    (ha : a ≠ ∅) (hb : b ≠ ∅) :
    compute_metrics a b = ⟨0, 0, 0, 0⟩ := by
  simp only [compute_metrics, hab]
  rw [if_neg (by tauto)]
  simp only [if_pos ha, if_pos hb, Finset.card_empty, Nat.cast_zero, zero_div]
  norm_num

/-! ## Claim theorems: overlap scorer -/

/-- Claim C5: for all finite sets of strings, `compute_metrics` returns all
four metrics equal to `1.0` when both sets are empty, and otherwise the
guarded precision/recall/F1/Jaccard ratios with empty denominators treated
as `0.0`, exactly as the spec words them (`metricsSpec`). -/
theorem compute_metrics_follows_spec (predicted actual : Finset String) :
    compute_metrics predicted actual = metricsSpec predicted actual := by
  unfold compute_metrics metricsSpec
  simp only [Finset.nonempty_iff_ne_empty]

/-- Claim C9: the annotated-keyword set used for scoring consists of
exactly the keys of `label_annotations.valid_keywords` other than the
sentinel `"None of the above"`. -/
theorem annotated_keywords_exclude_sentinel (a : AnnInstance) (x : String) :
    x ∈ extract_annotated_keywords a ↔ x ∈ a.valid_keywords ∧ x ≠ sentinel := by
  simp [extract_annotated_keywords]

/-- Claim C10: `compute_metrics` is symmetric under swapping its arguments:
precision of `(a, b)` is recall of `(b, a)`, and F1 and Jaccard are
invariant under the swap. -/
theorem compute_metrics_swap (a b : Finset String) :
    (compute_metrics a b).precision = (compute_metrics b a).«recall» ∧
    (compute_metrics a b).f1 = (compute_metrics b a).f1 ∧
    (compute_metrics a b).jaccard = (compute_metrics b a).jaccard := by
  unfold compute_metrics
  by_cases hab : a = ∅ ∧ b = ∅
  · rw [if_pos hab, if_pos ⟨hab.2, hab.1⟩]
    exact ⟨rfl, rfl, rfl⟩
  · rw [if_neg hab, if_neg (by tauto)]
    rw [Finset.inter_comm b a, Finset.union_comm b a]
    refine ⟨rfl, ?_, rfl⟩
    show (if 0 < _ + _ then _ else _) = (if 0 < _ + _ then _ else _)
    rw [add_comm (if b ≠ ∅ then ((a ∩ b).card : ℚ) / (b.card : ℚ) else 0)
      (if a ≠ ∅ then ((a ∩ b).card : ℚ) / (a.card : ℚ) else 0)]
    congr 1
    ring

/-! ## Claim theorems: biography-file format dispatch -/

/-- Claim C8, amended: for every path that does not end in `.jsonl`,
`.json` or `.csv`, loading fails with the unsupported-format error, whose
message is the fixed string `"Unknown bio file format"` (the rejected path
is not part of the message). -/
theorem load_bio_file_unknown_format (p : String)
    (h1 : strEndsWith p ".jsonl" = false)
    (h2 : strEndsWith p ".json" = false)
    (h3 : strEndsWith p ".csv" = false) :
    load_bio_file p = .error "Unknown bio file format" := by
  simp [load_bio_file, h1, h2, h3]

/-- Witness for C8's amended theorem at the concrete path `"foo.txt"`. -/
theorem load_bio_file_unknown_format_witness :
    load_bio_file "foo.txt" = .error "Unknown bio file format" :=
  load_bio_file_unknown_format "foo.txt" (by decide) (by decide) (by decide)

/-- Counterexample to claim C8 as stated: on the unsupported path
`"foo.txt"` the raised error message is `"Unknown bio file format"`, and
that message does not contain the rejected path (`"foo.txt"` has a `'.'`
character while the message has none). -/
theorem load_bio_file_message_omits_path :
    load_bio_file "foo.txt" = .error "Unknown bio file format" ∧
    ¬ ContainsSubstring "Unknown bio file format" "foo.txt" := by
  refine ⟨rfl, ?_⟩
  rintro ⟨pre, post, h⟩
  have hdot : '.' ∈ ("Unknown bio file format" : String).data := by
    have := congrArg String.data h
    rw [String.data_append, String.data_append] at this
    rw [this]
    simp only [List.mem_append]
    exact Or.inl (Or.inr (by decide))
  exact absurd hdot (by decide)

/-! ## Claim theorems: candidate builder -/

lemma buildCore_count {ps : Nat} {tk pool c : List String} (h1 : tk.Nodup)
    (h : BuildCore ps tk pool c) :
    (∀ x ∈ tk, x ∈ c → c.count x = 1) ∧ (∀ x ∈ c, x ∉ tk → x ∈ pool) := by
  rw [BuildCore] at h
  split at h
  · obtain ⟨samp, ⟨hslen, hsub⟩, hperm⟩ := h
    have hcnd : c.Nodup := hperm.nodup_iff.mpr (subperm_nodup hsub h1)
    constructor
    · exact fun x _ hxc => List.count_eq_one_of_mem hcnd hxc
    · intro x hxc hxt
      exact absurd (hsub.subset (hperm.subset hxc)) hxt
  · obtain ⟨d, hd, hperm⟩ := h
    have hdsub : d ⊆ possible_distractors pool tk := by
      split at hd
      · exact hd ▸ fun x hx => hx
      · exact hd.2.subset
    constructor
    · intro x hxt _
      rw [hperm.count_eq, List.count_append]
      have hd0 : d.count x = 0 :=
        List.count_eq_zero.mpr fun hxd => (mem_possible_distractors.mp (hdsub hxd)).2 hxt
      rw [hd0, List.count_eq_one_of_mem h1 hxt]
    · intro x hxc hxt
      rcases List.mem_append.mp (hperm.subset hxc) with hx | hx
      · exact absurd hx hxt
      · exact (mem_possible_distractors.mp (hdsub hx)).1

/-- Claim C1 (code bug): at the in-range input `true_keywords = ["a"]`,
`pool = {"a", "b"}`, `candidate_pool_size = 1` (so `n ≤ pool_size` and the
eligible distractor pool has `≥ pool_size - n` elements), every outcome of
the prepare flow emits exactly `["a"]`: length `pool_size`, not
`pool_size + 1`, and the sentinel is not last — `prepare_data.py` never
appends `"None of the above"`, unlike `add_samples.py` (line 153), which
the spec describes for both flows. -/
theorem prepare_flow_omits_sentinel :
    ∀ out, BuildPrepare 1 ["a"] ["a", "b"] out →
      out = ["a"] ∧ out.length ≠ 1 + 1 ∧ out.getLast? ≠ some sentinel := by
  intro out h
  rw [BuildPrepare, BuildCore, if_neg (by decide)] at h
  have hpd : possible_distractors ["a", "b"] ["a"] = ["b"] := by decide
  rw [hpd] at h
  simp only [if_neg (show ¬((["b"] : List String).length
    < 1 - (["a"] : List String).length) by decide)] at h
  obtain ⟨d, ⟨hlen, _⟩, hperm⟩ := h
  rw [List.length_eq_zero.mp hlen] at hperm
  have hout : out = ["a"] := List.perm_singleton.mp (by simpa [ShuffleOutcome] using hperm)
  subst hout
  exact ⟨rfl, by decide, by decide⟩

/-- Witness for C1's theorem: the outcome `["a"]` is reachable at that
input, and the theorem's conclusions evaluate there. -/
theorem prepare_flow_omits_sentinel_witness :
    BuildPrepare 1 ["a"] ["a", "b"] ["a"] ∧
    ((["a"] : List String) = ["a"] ∧ (["a"] : List String).length ≠ 1 + 1 ∧
      (["a"] : List String).getLast? ≠ some sentinel) := by
  have hb : BuildPrepare 1 ["a"] ["a", "b"] ["a"] := by
    refine ⟨[], ?_, ?_⟩
    · simp [possible_distractors, SampleOutcome]
    · simp [ShuffleOutcome]
  exact ⟨hb, prepare_flow_omits_sentinel ["a"] hb⟩

/-- Claim C2, amended: when `n > pool_size`, every outcome of the prepare
flow has length exactly `pool_size` with every entry drawn from the true
keywords, while every outcome of the append flow has length
`pool_size + 1`, its last element is the sentinel, and every other entry is
drawn from the true keywords. -/
theorem truncation_run_shape (ps : Nat) (tk pool : List String)
    (h : ps < tk.length) :
    (∀ out, BuildPrepare ps tk pool out →
        out.length = ps ∧ ∀ x ∈ out, x ∈ tk) ∧
    (∀ out, BuildAdd ps tk pool out →
        out.length = ps + 1 ∧ out.getLast? = some sentinel ∧
        ∀ x ∈ out.dropLast, x ∈ tk) := by
  have core : ∀ c, BuildCore ps tk pool c → c.length = ps ∧ ∀ x ∈ c, x ∈ tk := by
    intro c hc
    rw [BuildCore, if_pos h] at hc
    obtain ⟨samp, ⟨hlen, hsub⟩, hperm⟩ := hc
    constructor
    · rw [hperm.length_eq, hlen]
    · intro x hx
      exact hsub.subset (hperm.subset hx)
  constructor
  · exact core
  · rintro out ⟨c, hc, rfl⟩
    obtain ⟨hlen, hmem⟩ := core c hc
    refine ⟨by simp [hlen], by simp [List.getLast?_concat], ?_⟩
    rw [List.dropLast_concat]
    exact hmem

/-- Witness for C2's amended theorem at `pool_size = 1`,
`true_keywords = ["a", "b"]`, with the reachable append-flow outcome
`["a", sentinel]`. -/
theorem truncation_run_shape_witness :
    1 < (["a", "b"] : List String).length ∧
    (["a", sentinel] : List String).length = 1 + 1 ∧
    (["a", sentinel] : List String).getLast? = some sentinel := by
  have h : 1 < (["a", "b"] : List String).length := by decide
  have hadd : BuildAdd 1 ["a", "b"] [] ["a", sentinel] := by
    refine ⟨["a"], ?_, rfl⟩
    rw [BuildCore, if_pos (by decide)]
    exact ⟨["a"], ⟨rfl, ((List.nil_sublist ["b"]).cons₂ "a").subperm⟩, List.Perm.refl _⟩
  obtain ⟨hlen, hlast, _⟩ := (truncation_run_shape 1 ["a", "b"] [] h).2 ["a", sentinel] hadd
  exact ⟨h, hlen, hlast⟩

/-- Counterexample to claim C2 as stated: in the append flow with
`pool_size = 1` and `true_keywords = ["a", "b"]`, the reachable outcome
`["a", "None of the above"]` has length 2, not `pool_size = 1`, and its
sentinel entry is not an element of the true-keyword sequence. -/
theorem truncation_append_adds_sentinel :
    BuildAdd 1 ["a", "b"] [] ["a", sentinel] ∧
    ¬ ((["a", sentinel] : List String).length = 1 ∧
        ∀ x ∈ (["a", sentinel] : List String), x ∈ (["a", "b"] : List String)) := by
  constructor
  · refine ⟨["a"], ?_, rfl⟩
    rw [BuildCore, if_pos (by decide)]
    exact ⟨["a"], ⟨rfl, ((List.nil_sublist ["b"]).cons₂ "a").subperm⟩, List.Perm.refl _⟩
  · rintro ⟨hlen, _⟩
    exact absurd hlen (by decide)

/-- Claim C4, amended: for duplicate-free `true_keywords` not containing
the sentinel string, in both flows every true keyword that appears in the
output appears exactly once, and every emitted entry that is not a true
keyword is a pool element (or, in the append flow, the sentinel) — so no
chosen distractor duplicates a true keyword. -/
theorem surviving_keywords_once (ps : Nat) (tk pool : List String)
    (h1 : tk.Nodup) (h2 : sentinel ∉ tk) :
    (∀ out, BuildPrepare ps tk pool out →
        (∀ x ∈ tk, x ∈ out → out.count x = 1) ∧
        (∀ x ∈ out, x ∉ tk → x ∈ pool)) ∧
    (∀ out, BuildAdd ps tk pool out →
        (∀ x ∈ tk, x ∈ out → out.count x = 1) ∧
        (∀ x ∈ out, x ∉ tk → x ∈ pool ∨ x = sentinel)) := by
  constructor
  · exact fun out h => buildCore_count h1 h
  · rintro out ⟨c, hc, rfl⟩
    obtain ⟨hcount, hmem⟩ := buildCore_count h1 hc
    constructor
    · intro x hxt hxout
      rw [List.count_append]
      have hxs : x ≠ sentinel := fun hh => h2 (hh ▸ hxt)
      have hxc : x ∈ c := by
        rcases List.mem_append.mp hxout with hx | hx
        · exact hx
        · simp at hx
          exact absurd hx hxs
      rw [hcount x hxt hxc]
      simp [List.count_singleton, hxs]
    · intro x hxout hxt
      rcases List.mem_append.mp hxout with hx | hx
      · exact Or.inl (hmem x hx hxt)
      · simp at hx
        exact Or.inr hx

/-- Witness for C4's amended theorem: `true_keywords = ["a", "b"]`,
`pool = ["c"]`, `pool_size = 3`, with the reachable prepare-flow outcome
`["a", "b", "c"]`. -/
theorem surviving_keywords_once_witness :
    (["a", "b"] : List String).Nodup ∧ sentinel ∉ (["a", "b"] : List String) ∧
    (["a", "b", "c"] : List String).count "a" = 1 := by
  have h1 : (["a", "b"] : List String).Nodup := by decide
  have h2 : sentinel ∉ (["a", "b"] : List String) := by decide
  have hb : BuildPrepare 3 ["a", "b"] ["c"] ["a", "b", "c"] := by
    rw [BuildPrepare, BuildCore, if_neg (by decide)]
    have hpd : possible_distractors ["c"] ["a", "b"] = ["c"] := by decide
    rw [hpd]
    refine ⟨["c"], ?_, List.Perm.refl _⟩
    rw [if_neg (by decide)]
    exact ⟨rfl, List.Subperm.refl _⟩
  have happ := (surviving_keywords_once 3 ["a", "b"] ["c"] h1 h2).1 ["a", "b", "c"] hb
  exact ⟨h1, h2, happ.1 "a" (by decide) (by decide)⟩

/-- Counterexample to claim C4 as stated: with the duplicated input
`true_keywords = ["a", "a"]` and `pool_size = 2`, the reachable outcome
`["a", "a"]` contains the surviving true keyword `"a"` twice, not exactly
once. -/
theorem duplicate_true_keywords_counted_twice :
    BuildPrepare 2 ["a", "a"] [] ["a", "a"] ∧
    "a" ∈ (["a", "a"] : List String) ∧
    (["a", "a"] : List String).count "a" ≠ 1 := by
  refine ⟨?_, by decide, by decide⟩
  rw [BuildPrepare, BuildCore, if_neg (by decide)]
  refine ⟨[], ?_, List.Perm.refl _⟩
  rw [if_neg (by decide)]
  exact ⟨rfl, List.nil_subperm⟩

/-! ## Claim theorems: append-flow join and sampling -/

lemma availableData_id_not_used (bio : List BioItem) (md : List ModelItem)
    (used : List String) :
    ∀ item ∈ availableData bio md used, item.id ∉ used := by
  induction bio with
  | nil => simp [availableData]
  | cons b rest ih =>
    intro item hitem
    rw [availableData] at hitem
    split at hitem
    · exact ih item hitem
    · split at hitem
      · exact ih item hitem
      · split at hitem
        · exact ih item hitem
        · split at hitem
          · exact ih item hitem
          · rcases List.mem_cons.mp hitem with rfl | h
            · simpa using by assumption
            · exact ih item h

/-- Claim C7: in the append flow, no record whose identifier is in the
exclusion set built from the existing file is ever selected, and whenever
at least `k` characters are available the sampler returns exactly `k` of
them, for every outcome of the randomness source. -/
theorem append_flow_excludes_used (bio : List BioItem) (md : List ModelItem)
    (used : List String) (k : Nat) :
    ∀ out, SamplerOutcome (availableData bio md used) k out →
      (∀ item ∈ out, item.id ∉ used) ∧
      (k ≤ (availableData bio md used).length → out.length = k) := by
  intro out h
  rw [SamplerOutcome] at h
  split at h
  case isTrue hlt =>
    subst h
    exact ⟨availableData_id_not_used bio md used,
      fun hk => absurd hk (not_le.mpr hlt)⟩
  case isFalse hge =>
    obtain ⟨hlen, hsub⟩ := h
    exact ⟨fun item hi => availableData_id_not_used bio md used item (hsub.subset hi),
      fun _ => hlen⟩

/-- A biography entry carrying only a `character_json` identifier, for the
concrete append-flow scenario of spec §8. -/
def exBio (cid : String) : BioItem := ⟨some cid, none, none, none, ""⟩

/-- A model-output entry with one English keyword, for the concrete
append-flow scenario. -/
def exModel (cid : String) : ModelItem := ⟨cid, ["k"]⟩

/-- The joined record produced from `exBio cid` and `exModel cid`. -/
def exJoined (cid : String) : JoinedItem := ⟨cid, "Unknown", "", ["k"]⟩

/-- Witness for C7's theorem on the spec §8 append scenario: existing ids
`{"a", "b"}`, five candidates including one with id `"a"`, three
requested; the reachable outcome picks `"c"`, `"d"`, `"e"`. -/
theorem append_flow_excludes_used_witness :
    SamplerOutcome
      (availableData [exBio "a", exBio "c", exBio "d", exBio "e", exBio "f"]
        [exModel "a", exModel "c", exModel "d", exModel "e", exModel "f"]
        ["a", "b"]) 3
      [exJoined "c", exJoined "d", exJoined "e"] ∧
    ((∀ item ∈ [exJoined "c", exJoined "d", exJoined "e"],
        item.id ∉ (["a", "b"] : List String)) ∧
      (3 ≤ (availableData [exBio "a", exBio "c", exBio "d", exBio "e", exBio "f"]
          [exModel "a", exModel "c", exModel "d", exModel "e", exModel "f"]
          ["a", "b"]).length →
        ([exJoined "c", exJoined "d", exJoined "e"] : List JoinedItem).length = 3)) := by
  have hav : availableData [exBio "a", exBio "c", exBio "d", exBio "e", exBio "f"]
      [exModel "a", exModel "c", exModel "d", exModel "e", exModel "f"]
      ["a", "b"] = [exJoined "c", exJoined "d", exJoined "e", exJoined "f"] := by decide
  have hS : SamplerOutcome
      (availableData [exBio "a", exBio "c", exBio "d", exBio "e", exBio "f"]
        [exModel "a", exModel "c", exModel "d", exModel "e", exModel "f"]
        ["a", "b"]) 3
      [exJoined "c", exJoined "d", exJoined "e"] := by
    rw [SamplerOutcome, hav, if_neg (by decide)]
    exact ⟨rfl,
      (List.sublist_append_left [exJoined "c", exJoined "d", exJoined "e"]
        [exJoined "f"]).subperm⟩
  exact ⟨hS, append_flow_excludes_used _ _ _ 3 _ hS⟩

/-! ## Claim theorems: aggregation -/

lemma listMean_single (x : ℚ) : listMean [x] = x := by
  simp [listMean]

lemma listVar_single (x : ℚ) : listVar [x] = 0 := by
  simp [listVar, listMean_single]

lemma listStd_single (x : ℚ) : listStd [x] = 0 := by
  simp [listStd, listVar_single]

/-- Claim C6: aggregating the empty collection yields no keys; for a
non-empty collection each metric key gets the arithmetic mean and the
population standard deviation (sum of squared deviations divided by `N`,
then square root) of the values present; and on a single-element collection
each mean equals that element's value and each standard deviation is
`0.0`. -/
theorem aggregate_metrics_mean_std (l : List MetricsResult) (h : l ≠ []) :
    compute_aggregate_metrics [] = none ∧
    compute_aggregate_metrics l = some
      { precision_mean := (l.map (·.precision)).sum / (l.map (·.precision)).length
        precision_std := Real.sqrt
          ((((l.map (·.precision)).map (fun x =>
              (x - (l.map (·.precision)).sum / (l.map (·.precision)).length) ^ 2)).sum
            / (l.map (·.precision)).length : ℚ))
        recall_mean := (l.map (·.«recall»)).sum / (l.map (·.«recall»)).length
        recall_std := Real.sqrt
          ((((l.map (·.«recall»)).map (fun x =>
              (x - (l.map (·.«recall»)).sum / (l.map (·.«recall»)).length) ^ 2)).sum
            / (l.map (·.«recall»)).length : ℚ))
        f1_mean := (l.map (·.f1)).sum / (l.map (·.f1)).length
        f1_std := Real.sqrt
          ((((l.map (·.f1)).map (fun x =>
              (x - (l.map (·.f1)).sum / (l.map (·.f1)).length) ^ 2)).sum
            / (l.map (·.f1)).length : ℚ))
        jaccard_mean := (l.map (·.jaccard)).sum / (l.map (·.jaccard)).length
        jaccard_std := Real.sqrt
          ((((l.map (·.jaccard)).map (fun x =>
              (x - (l.map (·.jaccard)).sum / (l.map (·.jaccard)).length) ^ 2)).sum
            / (l.map (·.jaccard)).length : ℚ)) } ∧
    ∀ m : MetricsResult,
      compute_aggregate_metrics [m] =
        some ⟨m.precision, 0, m.«recall», 0, m.f1, 0, m.jaccard, 0⟩ := by
  refine ⟨rfl, ?_, ?_⟩
  · rw [compute_aggregate_metrics, if_neg h]
    rfl
  · intro m
    rw [compute_aggregate_metrics, if_neg (by simp)]
    simp [listMean_single, listStd_single]

/-- Witness for C6's theorem on the one-element collection of all-ones
metrics. -/
theorem aggregate_metrics_mean_std_witness :
    (([⟨1, 1, 1, 1⟩] : List MetricsResult) ≠ []) ∧
    (compute_aggregate_metrics [] = none ∧
      compute_aggregate_metrics [(⟨1, 1, 1, 1⟩ : MetricsResult)] =
        some ⟨(1 : ℚ), 0, 1, 0, 1, 0, 1, 0⟩) := by
  have h : ([⟨1, 1, 1, 1⟩] : List MetricsResult) ≠ [] := by simp
  obtain ⟨h1, _, h3⟩ := aggregate_metrics_mean_std [⟨1, 1, 1, 1⟩] h
  exact ⟨h, h1, h3 ⟨1, 1, 1, 1⟩⟩

/-- The original-record lookup of the concrete two-annotator scenario:
instances `i1` to `i4` all have model keywords `["k"]`. -/
def exLookup : String → Option OrigInstance := fun s =>
  if s = "i1" ∨ s = "i2" ∨ s = "i3" ∨ s = "i4" then some ⟨["k"]⟩ else none

/-- Annotator A scores one instance and selects a keyword disjoint from
the model's, so that instance's F1 is `0.0`. -/
def userA : List AnnInstance := [⟨some "i1", none, ["x"]⟩]

/-- Annotator B scores three instances, each selecting exactly the model's
keyword, so each instance's F1 is `1.0`. -/
def userB : List AnnInstance :=
  [⟨some "i2", none, ["k"]⟩, ⟨some "i3", none, ["k"]⟩, ⟨some "i4", none, ["k"]⟩]

/-- Claim C3: the overall aggregate is the aggregation function applied to
the flat list of every scored instance-level `MetricsResult` across all
annotators, and on the concrete input where annotator A has one instance
with F1 `0.0` and annotator B three instances with F1 `1.0`, the overall F1
mean is `0.75`, not the unweighted average `0.5` of the two per-annotator
F1 means. -/
theorem overall_aggregate_from_flat_list :
    (∀ users lookup, overallAggregate users lookup
        = compute_aggregate_metrics
            ((users.map fun anns => userMetrics anns lookup).flatten)) ∧
    (overallAggregate [userA, userB] exLookup).map (·.f1_mean) = some (3 / 4 : ℚ) ∧
    (compute_aggregate_metrics (userMetrics userA exLookup)).map (·.f1_mean)
      = some (0 : ℚ) ∧
    (compute_aggregate_metrics (userMetrics userB exLookup)).map (·.f1_mean)
      = some (1 : ℚ) ∧
    ((0 : ℚ) + 1) / 2 = 1 / 2 ∧ (3 / 4 : ℚ) ≠ 1 / 2 := by
  have hA : userMetrics userA exLookup = [(⟨0, 0, 0, 0⟩ : MetricsResult)] := by
    have h : userMetrics userA exLookup = [compute_metrics {"x"} {"k"}] := rfl
    rw [h, compute_metrics_disjoint (by decide) (by decide) (by decide)]
  have hB : userMetrics userB exLookup =
      [(⟨1, 1, 1, 1⟩ : MetricsResult), ⟨1, 1, 1, 1⟩, ⟨1, 1, 1, 1⟩] := by
    have h : userMetrics userB exLookup =
        [compute_metrics {"k"} {"k"}, compute_metrics {"k"} {"k"},
         compute_metrics {"k"} {"k"}] := rfl
    rw [h, compute_metrics_self (by decide)]
  have hAll : allInstanceMetrics [userA, userB] exLookup =
      [(⟨0, 0, 0, 0⟩ : MetricsResult), ⟨1, 1, 1, 1⟩, ⟨1, 1, 1, 1⟩, ⟨1, 1, 1, 1⟩] := by
    simp [allInstanceMetrics, hA, hB]
  refine ⟨fun users lookup => rfl, ?_, ?_, ?_, by norm_num, by norm_num⟩
  · rw [overallAggregate, hAll, compute_aggregate_metrics, if_neg (by simp)]
    simp [listMean]
    norm_num
  · rw [hA, compute_aggregate_metrics, if_neg (by simp)]
    simp [listMean]
  · rw [hB, compute_aggregate_metrics, if_neg (by simp)]
    simp [listMean]
    norm_num
